import Mathlib

/-!
Verification of PyMonitorLib's configuration loader and metric pipeline
(`monitor/lib/config.py`, `monitor/lib/metrics.py`) via a shallow embedding.

Python values are modelled by `PyValue` (floats as exact decimals), Python
exceptions by `PyExc`, and fallible code returns `Except PyExc _`.
Stateful methods return their result paired with the mutated object state,
so mutations performed before an exception is raised are retained, exactly
as in Python.
-/

namespace PyMonitorLib

/-- Python exception classes that the embedded code can raise or catch.
`convFail` is `ConversionFailure`, `configErr` is `ConfigError`,
`invalidConfigErr` is `InvalidConfigError` (both `ConfigError` subclasses);
the rest are the builtin `KeyError`, `AttributeError`, `TypeError`,
`ValueError`, `RuntimeError` and configparser's `NoSectionError` /
`NoOptionError`. -/
inductive PyExc where
  | convFail
  | configErr
  | invalidConfigErr
  | keyErr
  | attrErr
  | typeErr
  | valueErr
  | runtimeErr
  | noSectionErr
  | noOptionErr
deriving DecidableEq, Repr

/-- Python `float`, modelled as the exact decimal `mant / 10 ^ frac`.
The only floats this code base produces come from parsing decimal
literals in configuration files and metric values, which are exact in
this form; no claim depends on binary rounding. -/
structure PyFloat where
  mant : Int
  frac : Nat
deriving DecidableEq, Repr

/-- Embedded Python values.  `dict`s are association lists in insertion
order, mirroring Python 3 dict semantics. -/
inductive PyValue where
  | str (s : String)
  | int (n : Int)
  | float (f : PyFloat)
  | bool (b : Bool)
  | list (xs : List PyValue)
  | dict (kvs : List (String × PyValue))
  | none
deriving Repr

/-- `d[k]` lookup on a Python dict (first, and only, binding of `k`). -/
def dictLookup : List (String × PyValue) → String → Option PyValue
  | [], _ => Option.none
  | (k, v) :: rest, key => if k = key then some v else dictLookup rest key

/-- `d[k] = v` on a Python dict: updates in place keeping the key's
position, or appends a new binding (Python 3 insertion order). -/
def dictInsert : List (String × PyValue) → String → PyValue → List (String × PyValue)
  | [], key, val => [(key, val)]
  | (k, v) :: rest, key, val =>
    if k = key then (key, val) :: rest else (k, v) :: dictInsert rest key val

/-- Python `str.strip()`: remove leading and trailing whitespace
(implemented over the character list so that it is kernel-computable). -/
def pyTrim (s : String) : String :=
  ⟨(((s.data.dropWhile Char.isWhitespace).reverse).dropWhile Char.isWhitespace).reverse⟩

/-- Python `str.lower()` (the ASCII case, which covers every literal this
code base compares). -/
def pyToLower (s : String) : String :=
  ⟨s.data.map Char.toLower⟩

/-- Worker for `pySplitWs`: accumulate the current (reversed) token. -/
def pySplitWsAux : List Char → List Char → List String
  | [], acc => if acc.isEmpty then [] else [⟨acc.reverse⟩]
  | c :: cs, acc =>
    if c.isWhitespace then
      if acc.isEmpty then pySplitWsAux cs [] else ⟨acc.reverse⟩ :: pySplitWsAux cs []
    else pySplitWsAux cs (c :: acc)

/-- Python `str.split()` with no separator: split on whitespace runs,
discarding empty tokens. -/
def pySplitWs (s : String) : List String :=
  pySplitWsAux s.data []

/-- Worker for `pySplitOnChar`. -/
def pySplitOnCharAux (sep : Char) : List Char → List Char → List String
  | [], acc => [⟨acc.reverse⟩]
  | c :: cs, acc =>
    if c = sep then ⟨acc.reverse⟩ :: pySplitOnCharAux sep cs []
    else pySplitOnCharAux sep cs (c :: acc)

/-- Python `str.split(sep)` for a one-character separator: split at every
occurrence, keeping empty parts (`"a=".split('=') == ["a", ""]`). -/
def pySplitOnChar (sep : Char) (s : String) : List String :=
  pySplitOnCharAux sep s.data []

/-- Python `c in s` for a single character. -/
def pyContains (s : String) (c : Char) : Bool :=
  s.data.any (fun d => d = c)

/-- Digit string to number (caller guarantees all characters are digits). -/
def digitsToNat (cs : List Char) : Nat :=
  cs.foldl (fun a c => a * 10 + (c.toNat - 48)) 0

/-- Unsigned decimal literal: `digits`, `digits.digits`, `digits.` or
`.digits`, as the exact decimal `mant / 10 ^ frac`. -/
def pyFloatParseCore (cs : List Char) : Option PyFloat :=
  let ip := cs.takeWhile Char.isDigit
  let rest := cs.dropWhile Char.isDigit
  match rest with
  | [] => if ip.isEmpty then Option.none else some ⟨(digitsToNat ip : Int), 0⟩
  | c :: fp =>
    if c = '.' then
      if fp.all Char.isDigit then
        if ip.isEmpty && fp.isEmpty then Option.none
        else some ⟨(digitsToNat ip * 10 ^ fp.length + digitsToNat fp : Nat), fp.length⟩
      else Option.none
    else Option.none

/-- Python `float(string)` on the decimal forms used by this code base
(optional sign, digits, optional fractional part).  The exotic forms
(`inf`, `nan`, exponents) are outside the model; inputs reaching this
function have already been whitespace-stripped by `ConvertValue`. -/
def pyFloatParse (s : String) : Option PyFloat :=
  match s.data with
  | '-' :: cs => (pyFloatParseCore cs).map (fun f => ⟨-f.mant, f.frac⟩)
  | '+' :: cs => pyFloatParseCore cs
  | cs => pyFloatParseCore cs

/-- Python `int(string)`: optional sign followed by digits only. -/
def pyIntParse (s : String) : Option Int :=
  let core : List Char → Option Int := fun cs =>
    if cs.isEmpty then Option.none
    else if cs.all Char.isDigit then some (digitsToNat cs : Int)
    else Option.none
  match s.data with
  | '-' :: cs => (core cs).map (fun n => -n)
  | '+' :: cs => core cs
  | cs => core cs

/-- Python `int(float)`: truncation toward zero (`Int.div` truncates
toward zero). -/
def pyTrunc (f : PyFloat) : Int :=
  f.mant.tdiv ((10 : Int) ^ f.frac)

/-- Python `str(value)`.  Exact for the strings, integers and booleans this
code base feeds to `ConvertBoolean`; container and float renderings are
schematic (only their non-membership in the boolean literal lists below is
ever relevant). -/
def pyStr : PyValue → String
  | .str s => s
  | .int n => toString n
  | .bool b => if b then "True" else "False"
  | .float f => toString f.mant ++ "e-" ++ toString f.frac
  | .none => "None"
  | .list _ => "[...]"
  | .dict _ => "<dict>"

/-- Python truthiness test (`if not x`). -/
def pyFalsy : PyValue → Bool
  | .none => true
  | .bool b => !b
  | .int n => if n = 0 then true else false
  | .float f => if f.mant = 0 then true else false
  | .str s => if s = "" then true else false
  | .list xs => xs.isEmpty
  | .dict d => d.isEmpty

/-- Python `==` between an arbitrary value and a string constant. -/
def pyEqStr (h : PyValue) (t : String) : Bool :=
  match h with
  | .str s => s = t
  | _ => false

/-- `value.strip()` when the value is a string (`config.py` line 85-86). -/
def stripIfStr : PyValue → PyValue
  | .str s => .str (pyTrim s)
  | v => v

/-! Type-hint string constants (`Config.ARRAY_TYPE` etc., `config.py`
lines 146-151). -/

def ARRAY_TYPE : String := "array"
def BOOL_TYPE : String := "bool"
def FLOAT_TYPE : String := "float"
def HASH_TYPE : String := "hash"
def INT_TYPE : String := "int"
def STRING_TYPE : String := "string"

/-- `ConvertBoolean` (`config.py` lines 32-46): recognize boolean literal
strings case-insensitively, `Option.none` meaning "not a boolean". -/
def ConvertBoolean (value : PyValue) : Option Bool :=
  let v := pyToLower (pyStr value)
  if v = "yes" ∨ v = "1" ∨ v = "true" then some true
  else if v = "no" ∨ v = "0" ∨ v = "false" then some false
  else Option.none

/-- The token loop of `ConvertHashType`: `k, v = option.split('=')`
unpacks exactly two parts, otherwise `ValueError` is caught and
`ConversionFailure` raised for the whole conversion; values are
whitespace-stripped. -/
def hashPairs : List String → List (String × PyValue) → Except PyExc (List (String × PyValue))
  | [], acc => .ok acc
  | t :: ts, acc =>
    match pySplitOnChar '=' t with
    | [k, v] => hashPairs ts (dictInsert acc k (.str (pyTrim v)))
    | _ => .error .convFail

/-- `ConvertHashType` (`config.py` lines 49-65).  `value.split()` on a
non-string raises `AttributeError` (uncaught anywhere in the code base). -/
def ConvertHashType (value : PyValue) : Except PyExc PyValue :=
  match value with
  | .str s => (hashPairs (pySplitWs s) []).map PyValue.dict
  | _ => .error .attrErr

/-- Python `float(value)` (conversion from an arbitrary value). -/
def pyFloatOf : PyValue → Except PyExc PyFloat
  | .str s =>
    match pyFloatParse s with
    | some f => .ok f
    | Option.none => .error .valueErr
  | .int n => .ok ⟨n, 0⟩
  | .float f => .ok f
  | .bool b => .ok ⟨if b then 1 else 0, 0⟩
  | _ => .error .typeErr

/-- Python `int(value)` (conversion from an arbitrary value; floats
truncate toward zero). -/
def pyIntOf : PyValue → Except PyExc Int
  | .str s =>
    match pyIntParse s with
    | some n => .ok n
    | Option.none => .error .valueErr
  | .int n => .ok n
  | .float f => .ok (pyTrunc f)
  | .bool b => .ok (if b then 1 else 0)
  | _ => .error .typeErr

/-- `ConvertValue` (`config.py` lines 68-118).  The `attempt` value is the
`try:` block; the trailing match is the `except (TypeError, ValueError)`
handler, which converts those two exception classes to `ConversionFailure`
when a hint was given and otherwise falls back to returning the (stripped)
value.  `ConversionFailure` raised inside the block (hash conversion,
unsupported hint) and `AttributeError` are not caught and propagate. -/
def ConvertValue (value0 : PyValue) (hint : Option PyValue) : Except PyExc PyValue :=
  let value := stripIfStr value0
  let attempt : Except PyExc PyValue :=
    match hint with
    | some h =>
      if pyEqStr h ARRAY_TYPE then
        match value with
        | .str s => .ok (.list ((pySplitWs s).map PyValue.str))
        | _ => .error .attrErr
      else if pyEqStr h HASH_TYPE then ConvertHashType value
      else if pyEqStr h INT_TYPE then
        match value with
        | .str s =>
          if pyContains s '.' then (pyFloatOf (.str s)).map (fun f => .int (pyTrunc f))
          else (pyIntOf (.str s)).map PyValue.int
        | v => (pyIntOf v).map PyValue.int
      else if pyEqStr h BOOL_TYPE then
        .ok (match ConvertBoolean value with
             | some b => .bool b
             | Option.none => .none)
      else if pyEqStr h FLOAT_TYPE then (pyFloatOf value).map PyValue.float
      else if pyEqStr h STRING_TYPE then .ok value
      else .error .convFail
    | Option.none =>
      match ConvertBoolean value with
      | some b => .ok (.bool b)
      | Option.none =>
        match pyFloatOf value with
        | .error e => .error e
        | .ok q =>
          match value with
          | .str s => if pyContains s '.' then .ok (.float q) else .ok (.int (pyTrunc q))
          | _ => .ok (.int (pyTrunc q))
  match attempt with
  | .error .typeErr => ConvertValue.handler value hint
  | .error .valueErr => ConvertValue.handler value hint
  | r => r
where
  /-- The `except (TypeError, ValueError)` handler body. -/
  handler (value : PyValue) (hint : Option PyValue) : Except PyExc PyValue :=
    match hint with
    | some _ => .error .convFail
    | Option.none =>
      match ConvertBoolean value with
      | Option.none => .ok value
      | some b => .ok (.bool b)

/-- `DefaultValue` (`config.py` lines 121-139). -/
def DefaultValue (hint : PyValue) : Except PyExc PyValue :=
  if pyEqStr hint ARRAY_TYPE then .ok (.list [])
  else if pyEqStr hint HASH_TYPE then .ok (.dict [])
  else if pyEqStr hint INT_TYPE then .ok (.int 0)
  else if pyEqStr hint BOOL_TYPE then .ok (.bool false)
  else if pyEqStr hint FLOAT_TYPE then .ok (.float ⟨0, 0⟩)
  else if pyEqStr hint STRING_TYPE then .ok (.str "")
  else .error .convFail

/-! ## Configuration files and the `Config` object (`config.py`) -/


/-- A successfully parsed configuration file: ordered sections, each an
ordered list of `option = value` pairs (the output side of `ConfigParser`;
duplicate keys are already merged by the parser). -/
structure ParsedFile where
  sections : List (String × List (String × String))
deriving Repr

/-- `parser.has_section`. -/
def hasSection (pf : ParsedFile) (s : String) : Bool :=
  pf.sections.any (fun kv => kv.1 = s)

/-- The option list of a section (empty if the section is missing). -/
def sectionOpts (pf : ParsedFile) (s : String) : List (String × String) :=
  match pf.sections.find? (fun kv => kv.1 = s) with
  | some kv => kv.2
  | Option.none => []

/-- `parser.options(section)` in file order. -/
def optionsOf (pf : ParsedFile) (s : String) : List String :=
  (sectionOpts pf s).map Prod.fst

/-- `parser.has_option(section, option)`: raises `NoSectionError` when the
section itself is absent. -/
def hasOption (pf : ParsedFile) (s o : String) : Except PyExc Bool :=
  if hasSection pf s then .ok ((sectionOpts pf s).any (fun kv => kv.1 = o))
  else .error .noSectionErr

/-- `parser.get(section, option)`. -/
def getOpt (pf : ParsedFile) (s o : String) : Except PyExc String :=
  if hasSection pf s then
    match (sectionOpts pf s).find? (fun kv => kv.1 = o) with
    | some kv => .ok kv.2
    | Option.none => .error .noOptionErr
  else .error .noSectionErr

def GLOBAL_SECTION : String := "global"
def INFLUXDB_SECTION : String := "influxdb"
def SUPPORTED_DATABASES : List String := [INFLUXDB_SECTION]

/-- `Config.DATABASE_FIELDS[db]` (`config.py` lines 156-166). -/
def DATABASE_FIELDS (db : String) : List (String × String) :=
  if db = INFLUXDB_SECTION then
    [("database", STRING_TYPE), ("port", INT_TYPE), ("server", STRING_TYPE),
     ("ssl", BOOL_TYPE), ("verify", BOOL_TYPE), ("org", STRING_TYPE),
     ("token", STRING_TYPE), ("bucket", STRING_TYPE)]
  else []

/-- `Config.ENTRY_FIELDS` (`config.py` lines 167-170): name, hint, required. -/
def ENTRY_FIELDS : List (String × String × Bool) :=
  [("measurements", ARRAY_TYPE, true), ("tags", HASH_TYPE, false)]

/-- The `Config` object's mutable attributes (`__init__`, lines 172-186). -/
structure Config where
  path : Option String
  root : String
  config : List (String × PyValue)
  database : Option String
deriving Repr

/-- `Config.IsLoaded` (lines 253-261). -/
def Config.IsLoaded (c : Config) : Bool :=
  match c.path with
  | Option.none => true
  | some _ => decide (0 < c.config.length)

/-- `self.config[k] = v`. -/
def Config.set1 (c : Config) (k : String) (v : PyValue) : Config :=
  { c with config := dictInsert c.config k v }

/-- `self.config[k1][k2] = v` (KeyError when `k1` is absent, TypeError when
its value does not support item assignment). -/
def Config.set2 (c : Config) (k1 k2 : String) (v : PyValue) : Except PyExc Config :=
  match dictLookup c.config k1 with
  | some (.dict d) => .ok (c.set1 k1 (.dict (dictInsert d k2 v)))
  | some _ => .error .typeErr
  | Option.none => .error .keyErr

/-- `self.config[k1][k2]` viewed optionally. -/
def Config.get2 (c : Config) (k1 k2 : String) : Option PyValue :=
  match dictLookup c.config k1 with
  | some (.dict d) => dictLookup d k2
  | _ => Option.none

/-- `self.config[k1][k2][k3]` viewed optionally. -/
def Config.get3 (c : Config) (k1 k2 k3 : String) : Option PyValue :=
  match c.get2 k1 k2 with
  | some (.dict d) => dictLookup d k3
  | _ => Option.none

/-- `self.config[k1][k2][k3] = v`. -/
def Config.set3 (c : Config) (k1 k2 k3 : String) (v : PyValue) : Except PyExc Config :=
  match dictLookup c.config k1 with
  | some (.dict d1) =>
    match dictLookup d1 k2 with
    | some (.dict d2) => .ok (c.set1 k1 (.dict (dictInsert d1 k2 (.dict (dictInsert d2 k3 v)))))
    | some _ => .error .typeErr
    | Option.none => .error .keyErr
  | some _ => .error .typeErr
  | Option.none => .error .keyErr

/-- `self.config[k].keys()` (call sites guarantee `k` is a dict entry). -/
def Config.keys1 (c : Config) (k : String) : List String :=
  match dictLookup c.config k with
  | some (.dict d) => d.map Prod.fst
  | _ => []

/-- `Config.RequiredFields` (lines 397-411). -/
def requiredFields (pf : ParsedFile) (sec : String) : List String → Except PyExc Unit
  | [] => .ok ()
  | f :: rest =>
    match hasOption pf sec f with
    | .error e => .error e
    | .ok false => .error .invalidConfigErr
    | .ok true => requiredFields pf sec rest

/-- `Config.ParseOption` (lines 377-395): the option's value must itself be
one of the four primitive type-hint strings. -/
def ParseOption (pf : ParsedFile) (sec opt : String) : Except PyExc String :=
  match hasOption pf sec opt with
  | .error e => .error e
  | .ok false => .error .configErr
  | .ok true =>
    match getOpt pf sec opt with
    | .error e => .error e
    | .ok v =>
      if v = BOOL_TYPE ∨ v = FLOAT_TYPE ∨ v = INT_TYPE ∨ v = STRING_TYPE then .ok v
      else .error .invalidConfigErr

/-- The backend-field loop of `Load` (lines 294-302): coerce each declared
field that is present; `ConversionFailure` becomes `InvalidConfigError`. -/
def loadDbFields (pf : ParsedFile) (db : String) :
    List (String × String) → Config → Except PyExc Unit × Config
  | [], c => (.ok (), c)
  | (field, hint) :: rest, c =>
    match hasOption pf db field with
    | .error e => (.error e, c)
    | .ok false => loadDbFields pf db rest c
    | .ok true =>
      match getOpt pf db field with
      | .error e => (.error e, c)
      | .ok raw =>
        match ConvertValue (.str raw) (some (.str hint)) with
        | .ok v =>
          match c.set2 db field v with
          | .ok c2 => loadDbFields pf db rest c2
          | .error e => (.error e, c)
        | .error .convFail => (.error .invalidConfigErr, c)
        | .error e => (.error e, c)

/-- `for field in root.split(): self.config[self.root][field] = {}`
(lines 310-311). -/
def loadRootEntries (rootKey : String) : List String → Config → Except PyExc Unit × Config
  | [], c => (.ok (), c)
  | f :: rest, c =>
    match c.set2 rootKey f (.dict []) with
    | .ok c2 => loadRootEntries rootKey rest c2
    | .error e => (.error e, c)

/-- Device-section existence check (lines 316-318). -/
def deviceSectionsCheck (pf : ParsedFile) : List String → Except PyExc Unit
  | [] => .ok ()
  | d :: rest => if hasSection pf d then deviceSectionsCheck pf rest else .error .invalidConfigErr

/-- The declared entry-field loop (lines 326-339): coerce present declared
fields, default missing optional ones, reject missing required ones. -/
def loadEntryDeclared (pf : ParsedFile) (rootKey entry : String) :
    List (String × String × Bool) → Config → Except PyExc Unit × Config
  | [], c => (.ok (), c)
  | (field, hint, required) :: rest, c =>
    match hasOption pf entry field with
    | .error e => (.error e, c)
    | .ok true =>
      match getOpt pf entry field with
      | .error e => (.error e, c)
      | .ok raw =>
        match ConvertValue (.str raw) (some (.str hint)) with
        | .ok v =>
          match c.set3 rootKey entry field v with
          | .ok c2 => loadEntryDeclared pf rootKey entry rest c2
          | .error e => (.error e, c)
        | .error .convFail => (.error .invalidConfigErr, c)
        | .error e => (.error e, c)
    | .ok false =>
      if required then (.error .invalidConfigErr, c)
      else
        match DefaultValue (.str hint) with
        | .ok v =>
          match c.set3 rootKey entry field v with
          | .ok c2 => loadEntryDeclared pf rootKey entry rest c2
          | .error e => (.error e, c)
        | .error e => (.error e, c)

/-- The undeclared-option loop (lines 341-349): hint-less coercion of every
remaining option, names already present in the entry dict are skipped. -/
def loadEntryExtras (pf : ParsedFile) (rootKey entry : String) :
    List String → Config → Except PyExc Unit × Config
  | [], c => (.ok (), c)
  | opt :: rest, c =>
    if (c.get3 rootKey entry opt).isSome then loadEntryExtras pf rootKey entry rest c
    else
      match getOpt pf entry opt with
      | .error e => (.error e, c)
      | .ok raw =>
        match ConvertValue (.str raw) Option.none with
        | .ok v =>
          match c.set3 rootKey entry opt v with
          | .ok c2 => loadEntryExtras pf rootKey entry rest c2
          | .error e => (.error e, c)
        | .error .convFail => (.error .invalidConfigErr, c)
        | .error e => (.error e, c)

/-- View of a converted `array` value as its list of strings (array
coercion only ever produces lists of strings). -/
def pyStrList : PyValue → List String
  | .list xs => xs.filterMap (fun v => match v with | .str s => some s | _ => Option.none)
  | _ => []

/-- Key test on the local `measurements` accumulator of `Load`. -/
def assocHasKey (m : List (String × List String)) (k : String) : Bool :=
  m.any (fun kv => kv.1 = k)

/-- `measurements[measurement].append(option)`. -/
def assocAppend (m : List (String × List String)) (k v : String) : List (String × List String) :=
  m.map (fun kv => if kv.1 = k then (kv.1, kv.2 ++ [v]) else kv)

/-- `if measurement not in measurements: measurements[measurement] = []`. -/
def assocAddKey (m : List (String × List String)) (k : String) : List (String × List String) :=
  if assocHasKey m k then m else m ++ [(k, [])]

/-- The per-entry body of the entries loop (lines 321-353), threading the
local `measurements` accumulator. -/
def loadEntries (pf : ParsedFile) (rootKey : String) :
    List String → List (String × List String) → Config →
    Except PyExc (List (String × List String)) × Config
  | [], ms, c => (.ok ms, c)
  | entry :: rest, ms, c =>
    match requiredFields pf entry ["measurements"] with
    | .error e => (.error e, c)
    | .ok () =>
      match c.set2 rootKey entry (.dict [("device", .str entry)]) with
      | .error e => (.error e, c)
      | .ok c1 =>
        match loadEntryDeclared pf rootKey entry ENTRY_FIELDS c1 with
        | (.error e, c2) => (.error e, c2)
        | (.ok (), c2) =>
          match loadEntryExtras pf rootKey entry (optionsOf pf entry) c2 with
          | (.error e, c3) => (.error e, c3)
          | (.ok (), c3) =>
            let entryMs := pyStrList ((c3.get3 rootKey entry "measurements").getD .none)
            loadEntries pf rootKey rest (entryMs.foldl assocAddKey ms) c3

/-- The option loop inside a measurement section (lines 358-366).  Note the
duplicate check tests the literal key `'option'` (source line 361), exactly
as written. -/
def loadMeasOptions (pf : ParsedFile) (meas : String) :
    List String → List (String × List String) → Config →
    Except PyExc (List (String × List String)) × Config
  | [], ms, c => (.ok ms, c)
  | opt :: rest, ms, c =>
    match (if (c.get2 "measurements" meas).isSome then .ok c
           else c.set2 "measurements" meas (.dict [])) with
    | .error e => (.error e, c)
    | .ok c1 =>
      if (c1.get3 "measurements" meas "option").isSome then (.error .invalidConfigErr, c1)
      else
        match ParseOption pf meas opt with
        | .error e => (.error e, c1)
        | .ok hintVal =>
          match c1.set3 "measurements" meas opt (.str hintVal) with
          | .error e => (.error e, c1)
          | .ok c2 => loadMeasOptions pf meas rest (assocAppend ms meas opt) c2

/-- The measurement-sections loop (lines 355-366). -/
def loadMeasurements (pf : ParsedFile) :
    List String → List (String × List String) → Config →
    Except PyExc (List (String × List String)) × Config
  | [], ms, c => (.ok ms, c)
  | meas :: rest, ms, c =>
    if ¬ hasSection pf meas then (.error .invalidConfigErr, c)
    else
      match loadMeasOptions pf meas (optionsOf pf meas) ms c with
      | (.error e, c1) => (.error e, c1)
      | (.ok ms1, c1) => loadMeasurements pf rest ms1 c1

/-- `measurementMap` construction for one entry (lines 369-374). -/
def buildMeasurementMap (ms : List (String × List String)) :
    List String → List (String × PyValue) → Except PyExc (List (String × PyValue))
  | [], acc => .ok acc
  | m :: rest, acc =>
    match ms.find? (fun kv => kv.1 = m) with
    | Option.none => .error .invalidConfigErr
    | some kv => buildMeasurementMap ms rest (dictInsert acc m (.list (kv.2.map PyValue.str)))

/-- The final re-resolution loop (lines 368-375): each entry's flat
`measurements` list becomes a map from measurement name to that
measurement's option-name list. -/
def resolveEntries (rootKey : String) (ms : List (String × List String)) :
    List String → Config → Except PyExc Unit × Config
  | [], c => (.ok (), c)
  | entry :: rest, c =>
    let entryMs := pyStrList ((c.get3 rootKey entry "measurements").getD .none)
    match buildMeasurementMap ms entryMs [] with
    | .error e => (.error e, c)
    | .ok mmap =>
      match c.set3 rootKey entry "measurements" (.dict mmap) with
      | .error e => (.error e, c)
      | .ok c1 => resolveEntries rootKey ms rest c1

/-- `Config.Load` (lines 263-375).  The filesystem is modelled by
`fs : Option ParsedFile`: `Option.none` stands for a missing (or
unparseable) file.  Each failing step returns the error together with the
object state as mutated so far, as in Python. -/
def Config.Load (c : Config) (fs : Option ParsedFile) : Except PyExc Unit × Config :=
  if c.IsLoaded then (.ok (), c)
  else
    match fs with
    | Option.none => (.error .configErr, c)
    | some pf =>
      if ¬ hasSection pf GLOBAL_SECTION then (.error .invalidConfigErr, c)
      else
        match requiredFields pf GLOBAL_SECTION ["database", c.root] with
        | .error e => (.error e, c)
        | .ok () =>
          match getOpt pf GLOBAL_SECTION "database" with
          | .error e => (.error e, c)
          | .ok db =>
            let c1 := { c with database := some db }
            if db = "" ∨ ¬ SUPPORTED_DATABASES.contains db then (.error .invalidConfigErr, c1)
            else
              let c2 := c1.set1 db (.dict [])
              match loadDbFields pf db (DATABASE_FIELDS db) c2 with
              | (.error e, c3) => (.error e, c3)
              | (.ok (), c3) =>
                match getOpt pf GLOBAL_SECTION c.root with
                | .error e => (.error e, c3)
                | .ok rootVal =>
                  if rootVal = "" then (.error .invalidConfigErr, c3)
                  else
                    let c4 := (c3.set1 "measurements" (.dict [])).set1 c.root (.dict [])
                    match loadRootEntries c.root (pySplitWs rootVal) c4 with
                    | (.error e, c5) => (.error e, c5)
                    | (.ok (), c5) =>
                      if (c5.keys1 c.root).length = 0 then (.error .invalidConfigErr, c5)
                      else
                        match deviceSectionsCheck pf (c5.keys1 c.root) with
                        | .error e => (.error e, c5)
                        | .ok () =>
                          match loadEntries pf c.root (c5.keys1 c.root) [] c5 with
                          | (.error e, c6) => (.error e, c6)
                          | (.ok ms, c6) =>
                            match loadMeasurements pf (ms.map Prod.fst) ms c6 with
                            | (.error e, c7) => (.error e, c7)
                            | (.ok ms2, c7) =>
                              resolveEntries c.root ms2 (c7.keys1 c.root) c7

/-- `Config.GetField` (lines 198-222).  `measurement`/`field` are optional
to keep the `is None` guard; unknown measurement or field raises
`KeyError`; a falsy stored hint also raises `KeyError`. -/
def Config.GetField (c : Config) (measurement field : Option String) (fs : Option ParsedFile) :
    Except PyExc PyValue × Config :=
  match measurement, field with
  | some meas, some fld =>
    match (if c.IsLoaded then ((.ok () : Except PyExc Unit), c) else c.Load fs) with
    | (.error e, c1) => (.error e, c1)
    | (.ok (), c1) =>
      match dictLookup c1.config "measurements" with
      | Option.none => (.error .keyErr, c1)
      | some mv =>
        match mv with
        | .dict md =>
          match dictLookup md meas with
          | Option.none => (.error .keyErr, c1)
          | some mrec =>
            match mrec with
            | .dict ftab =>
              match dictLookup ftab fld with
              | Option.none => (.error .keyErr, c1)
              | some hv => if pyFalsy hv then (.error .keyErr, c1) else (.ok hv, c1)
            | _ => (.error .attrErr, c1)
        | _ => (.error .typeErr, c1)
  | _, _ => (.error .keyErr, c)

/-- `Config.GetDatabase` (lines 188-196). -/
def Config.GetDatabase (c : Config) (fs : Option ParsedFile) :
    Except PyExc (String × PyValue) × Config :=
  match (if c.IsLoaded then ((.ok () : Except PyExc Unit), c) else c.Load fs) with
  | (.error e, c1) => (.error e, c1)
  | (.ok (), c1) =>
    match c1.database with
    | Option.none => (.error .keyErr, c1)
    | some db =>
      match dictLookup c1.config db with
      | some v => (.ok (db, v), c1)
      | Option.none => (.error .keyErr, c1)

/-- `Config.GetRoot` (lines 224-234). -/
def Config.GetRoot (c : Config) (fs : Option ParsedFile) : Except PyExc PyValue × Config :=
  match (if c.IsLoaded then ((.ok () : Except PyExc Unit), c) else c.Load fs) with
  | (.error e, c1) => (.error e, c1)
  | (.ok (), c1) =>
    match c1.path with
    | Option.none => (.ok (.dict []), c1)
    | some _ =>
      match dictLookup c1.config c1.root with
      | some v => (.ok v, c1)
      | Option.none => (.error .keyErr, c1)

/-- `Config.GetTags` (lines 236-251): KeyError for an unknown entity, the
`tags` value (default empty list) otherwise. -/
def Config.GetTags (c : Config) (entity : Option String) (fs : Option ParsedFile) :
    Except PyExc PyValue × Config :=
  match entity with
  | Option.none => (.error .keyErr, c)
  | some e =>
    match (if c.IsLoaded then ((.ok () : Except PyExc Unit), c) else c.Load fs) with
    | (.error err, c1) => (.error err, c1)
    | (.ok (), c1) =>
      match c1.path with
      | Option.none => (.ok (.dict []), c1)
      | some _ =>
        match dictLookup c1.config c1.root with
        | Option.none => (.error .keyErr, c1)
        | some rv =>
          match rv with
          | .dict rd =>
            match dictLookup rd e with
            | Option.none => (.error .keyErr, c1)
            | some ev =>
              match ev with
              | .dict ed => (.ok ((dictLookup ed "tags").getD (.list [])), c1)
              | _ => (.error .attrErr, c1)
          | _ => (.error .typeErr, c1)


/-! ## The metric pipeline (`metrics.py`) -/

/-- One entry of `Metric.fields`: `{'original': value, 'clean': None}`
(`metrics.py` line 47).  `clean` starts as Python `None`. -/
structure FieldEntry where
  original : PyValue
  clean : PyValue
deriving Repr

/-- `Metric` (`metrics.py` lines 27-47).  The capture timestamp is real
time and is not modelled; no claim depends on it. -/
structure Metric where
  entity : String
  measurement : String
  tags : List (String × PyValue)
  fields : List (String × FieldEntry)
deriving Repr

/-- `MetricPipeline`'s mutable attributes (`metrics.py` lines 78-93).
`logger` is `true` when a logger instance was supplied; `database` is
`true` while a backend handle is held (the handle itself is abstracted
behind the write oracle of `Flush`). -/
structure MetricPipeline where
  config : Config
  logger : Bool
  batchSize : Nat
  queue : List Metric
  database : Bool
  shutdown : Bool
deriving Repr

/-- The per-field loop of `Enqueue` (`metrics.py` lines 119-133), returning
the processed field list and the `skip` flag.  The `hint = GetField(...)`
call sits OUTSIDE the `try:` block, so a `KeyError` it raises propagates
out of `Enqueue`; the `except KeyError` arm only guards `ConvertValue`
(which never raises `KeyError`) and sets `skip` only under
`if self.logger:` before breaking out of the loop.  A `ConversionFailure`
from `ConvertValue` replaces the field's clean value with the hint's
default. -/
def enqueueFields (cfg : Config) (fs : Option ParsedFile) (logger : Bool) (meas : String) :
    List (String × FieldEntry) →
    Except PyExc (List (String × FieldEntry) × Bool) × Config
  | [] => (.ok ([], false), cfg)
  | (fld, fe) :: rest =>
    match cfg.GetField (some meas) (some fld) fs with
    | (.error e, cfg1) => (.error e, cfg1)
    | (.ok hint, cfg1) =>
      match ConvertValue fe.original (some hint) with
      | .ok v =>
        match enqueueFields cfg1 fs logger meas rest with
        | (.ok (rest1, skip), cfg2) => (.ok ((fld, { fe with clean := v }) :: rest1, skip), cfg2)
        | (.error e, cfg2) => (.error e, cfg2)
      | .error .keyErr => (.ok ((fld, fe) :: rest, logger), cfg1)
      | .error .convFail =>
        match DefaultValue hint with
        | .ok d =>
          match enqueueFields cfg1 fs logger meas rest with
          | (.ok (rest1, skip), cfg2) => (.ok ((fld, { fe with clean := d }) :: rest1, skip), cfg2)
          | (.error e, cfg2) => (.error e, cfg2)
        | .error e => (.error e, cfg1)
      | .error e => (.error e, cfg1)

/-- The per-metric loop of `Enqueue` (`metrics.py` lines 113-135): process
the fields, then append the (mutated) metric unless `skip` was set.
Metrics appended before an escaping exception stay in the queue. -/
def enqueueMetrics (fs : Option ParsedFile) :
    List Metric → MetricPipeline → Except PyExc Unit × MetricPipeline
  | [], p => (.ok (), p)
  | m :: rest, p =>
    match enqueueFields p.config fs p.logger m.measurement m.fields with
    | (.error e, cfg1) => (.error e, { p with config := cfg1 })
    | (.ok (flds, skip), cfg1) =>
      let m1 := { m with fields := flds }
      let p1 := { p with config := cfg1,
                         queue := if skip then p.queue else p.queue ++ [m1] }
      enqueueMetrics fs rest p1

/-- `MetricPipeline.Enqueue` (`metrics.py` lines 98-135) on a list of
metrics (a single metric is the singleton list; non-`Metric` elements,
which the source skips with a warning, are excluded by typing). -/
def MetricPipeline.Enqueue (p : MetricPipeline) (metrics : List Metric) (fs : Option ParsedFile) :
    Except PyExc Unit × MetricPipeline :=
  if p.shutdown then (.ok (), p)
  else enqueueMetrics fs metrics p

/-- Outcome of one backend `Write` + `Flush` round-trip, as classified by
the handlers of `MetricPipeline.Flush` (lines 180-212): `ok` = no
exception; `transient` = any of the caught request-level exception classes
(timeout, connection, HTTP, redirect, request, generic `Exception`), all
of which make `Flush` return `(False, sent)`; `fatal` = `RuntimeError`,
which is re-raised. -/
inductive WriteOutcome where
  | ok
  | transient
  | fatal
deriving DecidableEq, Repr

/-- Result of lazily constructing the backend handle inside `Flush`
(lines 171-176): `ready` = handle available; `genericFail` = an exception
from `GetDatabase` (caught by the final `except Exception`);
`fatal` = unknown database type (`RuntimeError`, re-raised). -/
inductive DbInitRes where
  | ready
  | genericFail
  | fatal
deriving DecidableEq, Repr

/-- `if not self.database: dbtype, config = self.config.GetDatabase(); ...`
(lines 171-176).  The `InfluxDatabase` constructor itself only raises when
the influxdb client library is absent, which is outside this model. -/
def dbInit (fs : Option ParsedFile) (p : MetricPipeline) : DbInitRes × MetricPipeline :=
  if p.database then (.ready, p)
  else
    match p.config.GetDatabase fs with
    | (.error _, cfg1) => (.genericFail, { p with config := cfg1 })
    | (.ok (dbtype, _), cfg1) =>
      if dbtype = INFLUXDB_SECTION then (.ready, { p with config := cfg1, database := true })
      else (.fatal, { p with config := cfg1 })

/-- The result of a `Flush` call: the Python return value (or the escaping
exception), the pipeline state afterwards, and the trace of backend write
calls (the encoded point batch of each `self.database.Write(points)`
attempt, in order). -/
structure FlushOut where
  result : Option (Except PyExc (Bool × Nat))
  pipe : MetricPipeline
  trace : List (List Metric)
deriving Repr

/-- The `while not self.IsEmpty():` loop of `Flush` (lines 149-223),
with explicit fuel (`result = Option.none` meaning the fuel ran out, which
cannot happen for a positive batch size: each successful round removes at
least one queued record).  Each round takes `min(queueLength, batchSize)`
records from the queue head, encodes those with a non-empty field map,
lazily constructs the backend, consults the write oracle (indexed by the
number of write calls made so far), and on success adds `len(points)` to
the sent counter and pops the batch; any transient failure returns
`(False, sent)` with the queue intact. -/
def flushLoop (fs : Option ParsedFile) (oracle : Nat → WriteOutcome) (b : Nat) :
    Nat → MetricPipeline → Nat → Nat → List (List Metric) → FlushOut
  | fuel, p, calls, sent, trace =>
    if p.queue.isEmpty then ⟨some (.ok (true, sent)), p, trace⟩
    else
      match fuel with
      | 0 => ⟨Option.none, p, trace⟩
      | fuel + 1 =>
        let count := min p.queue.length b
        let points := (p.queue.take count).filter (fun m => !m.fields.isEmpty)
        match dbInit fs p with
        | (.genericFail, p1) => ⟨some (.ok (false, sent)), p1, trace⟩
        | (.fatal, p1) => ⟨some (.error .runtimeErr), p1, trace⟩
        | (.ready, p1) =>
          match oracle calls with
          | .ok =>
            flushLoop fs oracle b fuel { p1 with queue := p1.queue.drop count }
              (calls + 1) (sent + points.length) (trace ++ [points])
          | .transient => ⟨some (.ok (false, sent)), p1, trace ++ [points]⟩
          | .fatal => ⟨some (.error .runtimeErr), p1, trace ++ [points]⟩

/-- `MetricPipeline.Flush` (lines 137-225).  Returns `(False, 0)` when shut
down; otherwise runs the batching loop (the queue length is enough fuel for
any positive batch size). -/
def MetricPipeline.Flush (p : MetricPipeline) (fs : Option ParsedFile)
    (oracle : Nat → WriteOutcome) : FlushOut :=
  if p.shutdown then ⟨some (.ok (false, 0)), p, []⟩
  else flushLoop fs oracle p.batchSize p.queue.length p 0 0 []

/-- `MetricPipeline.Reload` (lines 235-257).  `closeRaises` is whether
`self.database.Close()` raises.  The whole body is wrapped in
`try/except Exception`, so `Reload` itself never raises; but when `Flush`
or `Close` raises, the handler swallows the exception and the statements
`self.database = None` / `self.config = config` never execute. -/
def MetricPipeline.Reload (p : MetricPipeline) (newConfig : Config) (fs : Option ParsedFile)
    (oracle : Nat → WriteOutcome) (closeRaises : Bool) : MetricPipeline :=
  match (p.Flush fs oracle).result with
  | some (.ok _) =>
    if (p.Flush fs oracle).pipe.database && closeRaises then (p.Flush fs oracle).pipe
    else { (p.Flush fs oracle).pipe with database := false, config := newConfig }
  | _ => (p.Flush fs oracle).pipe


/-! ## Shared concrete fixtures -/

/-- A loaded configuration: measurement `cpu` with fields `load : float`
and `cores : int`, one entry `dev1`, influxdb backend. -/
def cfgFix : Config :=
  ⟨some "monitor.ini", "nodes",
   [("influxdb", .dict [("server", .str "db.example")]),
    ("measurements", .dict [("cpu", .dict [("load", .str "float"), ("cores", .str "int")])]),
    ("nodes", .dict [("dev1", .dict [("device", .str "dev1")])])],
   some "influxdb"⟩

/-- A pipeline over `cfgFix` with a logger, batch size 10, empty queue. -/
def pipeFix : MetricPipeline := ⟨cfgFix, true, 10, [], false, false⟩

/-! ## C1 -/

/-- A metric for the measurement `mem`, which `cfgFix` does not register. -/
def metricUnknown : Metric := ⟨"dev1", "mem", [], [("x", ⟨.str "1", .none⟩)]⟩

/-- C1 (code_bug evidence): enqueueing a metric whose measurement is not
registered in the loaded config does leave the queue unchanged, but the
`KeyError` raised by `Config.GetField` ESCAPES `Enqueue` instead of being
caught: the `hint = self.config.GetField(...)` call (`metrics.py` line 121)
sits outside the `try:` block, so the `except KeyError` arm (lines 124-128)
that would log a warning and skip the record is dead code, contradicting
the claim that no exception reaches the caller. -/
theorem enqueue_unknown_measurement_raises_keyerror :
    (pipeFix.Enqueue [metricUnknown] Option.none).1 = .error .keyErr ∧
    (pipeFix.Enqueue [metricUnknown] Option.none).2 = pipeFix ∧
    cfgFix.get2 "measurements" "mem" = Option.none :=
  ⟨rfl, rfl, rfl⟩

/-! ## C2 -/

/-- A fresh (unloaded) config object for the root key `nodes`. -/
def cFresh : Config := ⟨some "monitor.ini", "nodes", [], Option.none⟩

/-- A parseable file whose `Load` fails only after several schema keys have
been created: entry `dev1` is named in the root list but has no section. -/
def pfPartial : ParsedFile :=
  ⟨[("global", [("database", "influxdb"), ("nodes", "dev1")]),
    ("influxdb", [])]⟩

/-- C2 counterexample: `Load` on `pfPartial` raises (`InvalidConfigError`,
missing device section), yet afterwards the object is NOT unloaded:
`IsLoaded()` is `True` and `self.config` retains the partially built
schema (`influxdb`, `measurements` and `nodes` keys). -/
theorem load_failure_retains_partial_schema :
    (cFresh.Load (some pfPartial)).1 = .error .invalidConfigErr ∧
    (cFresh.Load (some pfPartial)).2.IsLoaded = true ∧
    (cFresh.Load (some pfPartial)).2.config =
      [("influxdb", .dict []), ("measurements", .dict []),
       ("nodes", .dict [("dev1", .dict [])])] :=
  ⟨rfl, rfl, rfl⟩

/-- C2 amended: `Load` is all-or-nothing only up to the backend-kind
validation.  A missing file, a missing `[global]` section, a missing
required global key, or an empty/unsupported `database` value all leave
`self.config` empty and `IsLoaded()` false (the last case only mutates
`self.database`); any later failure retains the partial schema, as the
counterexample shows. -/
theorem load_prevalidation_failures_leave_unloaded
    (c : Config) (p : String) (hp : c.path = some p) (hc : c.config = []) :
    ((c.Load Option.none).1 = .error .configErr ∧ (c.Load Option.none).2 = c) ∧
    (∀ pf, hasSection pf GLOBAL_SECTION = false →
      (c.Load (some pf)).1 = .error .invalidConfigErr ∧ (c.Load (some pf)).2 = c) ∧
    (∀ pf e, hasSection pf GLOBAL_SECTION = true →
      requiredFields pf GLOBAL_SECTION ["database", c.root] = .error e →
      (c.Load (some pf)).1 = .error e ∧ (c.Load (some pf)).2 = c) ∧
    (∀ pf db, hasSection pf GLOBAL_SECTION = true →
      requiredFields pf GLOBAL_SECTION ["database", c.root] = .ok () →
      getOpt pf GLOBAL_SECTION "database" = .ok db →
      (db = "" ∨ SUPPORTED_DATABASES.contains db = false) →
      (c.Load (some pf)).1 = .error .invalidConfigErr ∧
      (c.Load (some pf)).2.config = [] ∧ (c.Load (some pf)).2.IsLoaded = false) := by
  have hIL : c.IsLoaded = false := by
    simp [Config.IsLoaded, hp, hc]
  refine ⟨?_, ?_, ?_, ?_⟩
  · unfold Config.Load
    rw [hIL]
    exact ⟨rfl, rfl⟩
  · intro pf hg
    unfold Config.Load
    rw [hIL]
    simp [hg]
  · intro pf e hg hreq
    unfold Config.Load
    rw [hIL]
    simp [hg, hreq]
  · intro pf db hg hreq hget hbad
    unfold Config.Load
    rw [hIL]
    simp only [Bool.false_eq_true, if_false, hg, not_true_eq_false, if_true, hreq, hget]
    have hcond : (db = "" ∨ ¬ SUPPORTED_DATABASES.contains db = true) := by
      rcases hbad with h | h
      · exact Or.inl h
      · right
        intro hct
        rw [h] at hct
        exact Bool.noConfusion hct
    rw [if_pos hcond]
    refine ⟨rfl, hc, ?_⟩
    simp [Config.IsLoaded, hp, hc]

/-- C2 witness: the amended theorem applied to a concrete unloaded config
and a file with no `[global]` section. -/
theorem load_prevalidation_failures_leave_unloaded_witness :
    (cFresh.Load (some (⟨[("other", [])]⟩ : ParsedFile))).1 = .error .invalidConfigErr ∧
    (cFresh.Load (some (⟨[("other", [])]⟩ : ParsedFile))).2 = cFresh :=
  (load_prevalidation_failures_leave_unloaded cFresh "monitor.ini" rfl rfl).2.1
    ⟨[("other", [])]⟩ rfl

/-! ## C3 -/

/-- A metric for the registered measurement `cpu` with an empty field map. -/
def metricNoFields : Metric := ⟨"dev1", "cpu", [], []⟩

/-- C3 counterexample: a record with zero fields is NOT dropped before
insertion — `Enqueue` appends it to the queue (its field loop never runs,
`skip` stays false, `metrics.py` lines 119-135), so the queue does contain
a record with an empty field map. -/
theorem enqueue_stores_zero_field_record :
    (pipeFix.Enqueue [metricNoFields] Option.none).1 = .ok () ∧
    (pipeFix.Enqueue [metricNoFields] Option.none).2.queue = [metricNoFields] ∧
    metricNoFields.fields = [] :=
  ⟨rfl, rfl, rfl⟩

/-! ## C4 -/

/-- C4 counterexample: `Coerce(DefaultValue(array), array)` does not
succeed — the default is the empty list, and `ConvertValue` calls
`.split()` on it, raising `AttributeError` (caught nowhere). -/
theorem coerce_default_array_raises :
    DefaultValue (.str ARRAY_TYPE) = .ok (.list []) ∧
    ConvertValue (.list []) (some (.str ARRAY_TYPE)) = .error .attrErr :=
  ⟨rfl, rfl⟩

/-- C4 amended: `Coerce(DefaultValue(h), h) = DefaultValue(h)` holds for
the primitive hints `int`, `bool`, `float` and `string`, but for `array`
and `hash` the conversion raises `AttributeError` (`.split()` on a
list/dict default). -/
theorem coerce_default_identity_on_primitive_hints :
    (DefaultValue (.str INT_TYPE) = .ok (.int 0) ∧
      ConvertValue (.int 0) (some (.str INT_TYPE)) = .ok (.int 0)) ∧
    (DefaultValue (.str BOOL_TYPE) = .ok (.bool false) ∧
      ConvertValue (.bool false) (some (.str BOOL_TYPE)) = .ok (.bool false)) ∧
    (DefaultValue (.str FLOAT_TYPE) = .ok (.float ⟨0, 0⟩) ∧
      ConvertValue (.float ⟨0, 0⟩) (some (.str FLOAT_TYPE)) = .ok (.float ⟨0, 0⟩)) ∧
    (DefaultValue (.str STRING_TYPE) = .ok (.str "") ∧
      ConvertValue (.str "") (some (.str STRING_TYPE)) = .ok (.str "")) ∧
    ConvertValue (.list []) (some (.str ARRAY_TYPE)) = .error .attrErr ∧
    ConvertValue (.dict []) (some (.str HASH_TYPE)) = .error .attrErr :=
  ⟨⟨rfl, rfl⟩, ⟨rfl, rfl⟩, ⟨rfl, rfl⟩, ⟨rfl, rfl⟩, rfl, rfl⟩

/-! ## C5 -/

/-- Old and new schemas with distinguishable root names. -/
def cOld : Config := ⟨Option.none, "rootOld", [], Option.none⟩
def cNew : Config := ⟨Option.none, "rootNew", [], Option.none⟩

/-- An idle pipeline holding a live backend handle over `cOld`. -/
def pIdle : MetricPipeline := ⟨cOld, false, 10, [], true, false⟩

/-- C5 counterexample: when `self.database.Close()` raises during `Reload`,
the `except Exception` handler swallows it BEFORE `self.database = None`
and `self.config = config` run (`metrics.py` lines 249-257) — so the
backend handle is NOT cleared and the new schema is NOT installed,
contradicting the claim for this exception. -/
theorem reload_close_exception_keeps_backend_and_schema :
    (pIdle.Reload cNew Option.none (fun _ => .ok) true).database = true ∧
    (pIdle.Reload cNew Option.none (fun _ => .ok) true).config.root = "rootOld" ∧
    cNew.root = "rootNew" :=
  ⟨rfl, rfl, rfl⟩

/-- C5 amended: `Reload` never raises, and whenever the internal `Flush`
returns (rather than raises — transient backend failures return
`(False, sent)`) and `Close` does not raise, the backend handle is
cleared, the new schema is installed, and exactly the records left
un-flushed remain queued. -/
theorem reload_swaps_schema_when_teardown_does_not_raise
    (p : MetricPipeline) (newConfig : Config) (fs : Option ParsedFile)
    (oracle : Nat → WriteOutcome) (r : Bool × Nat)
    (h : (p.Flush fs oracle).result = some (.ok r)) :
    (p.Reload newConfig fs oracle false).database = false ∧
    (p.Reload newConfig fs oracle false).config = newConfig ∧
    (p.Reload newConfig fs oracle false).queue = (p.Flush fs oracle).pipe.queue := by
  unfold MetricPipeline.Reload
  rw [h]
  simp

/-- C5 witness: a pipeline with two queued records and an always-transient
backend; `Flush` fails transiently (returning, not raising), yet the new
schema is installed, the handle cleared, and both records remain queued. -/
theorem reload_swaps_schema_witness :
    ((⟨cOld, false, 10, [metricNoFields, metricNoFields], true, false⟩ :
        MetricPipeline).Reload cNew Option.none (fun _ => .transient) false).database = false ∧
    ((⟨cOld, false, 10, [metricNoFields, metricNoFields], true, false⟩ :
        MetricPipeline).Reload cNew Option.none (fun _ => .transient) false).config = cNew ∧
    ((⟨cOld, false, 10, [metricNoFields, metricNoFields], true, false⟩ :
        MetricPipeline).Reload cNew Option.none (fun _ => .transient) false).queue =
      [metricNoFields, metricNoFields] :=
  reload_swaps_schema_when_teardown_does_not_raise
    ⟨cOld, false, 10, [metricNoFields, metricNoFields], true, false⟩
    cNew Option.none (fun _ => .transient) (false, 0) rfl

/-! ## C10 -/

/-- C10: a config constructed with `path = None` behaves as a permanently
loaded empty schema: `IsLoaded()` is always true, `Load` returns
immediately (any filesystem state, never raising, never mutating),
`GetRoot()` yields the empty dict, and `GetTags(entity)` yields the empty
dict for every non-None entity. -/
theorem config_path_none_permanently_loaded
    (c : Config) (hp : c.path = Option.none) :
    c.IsLoaded = true ∧
    (∀ fs, c.Load fs = (.ok (), c)) ∧
    (∀ fs, c.GetRoot fs = (.ok (.dict []), c)) ∧
    (∀ fs e, c.GetTags (some e) fs = (.ok (.dict []), c)) := by
  have hIL : c.IsLoaded = true := by simp [Config.IsLoaded, hp]
  refine ⟨hIL, fun fs => ?_, fun fs => ?_, fun fs e => ?_⟩
  · unfold Config.Load
    rw [hIL]
    simp
  · unfold Config.GetRoot
    rw [hIL]
    simp [hp]
  · unfold Config.GetTags
    rw [hIL]
    simp [hp]

/-- C10 witness: the theorem applied to the concrete fresh object
`Config(None, "nodes")`. -/
theorem config_path_none_permanently_loaded_witness :
    (⟨Option.none, "nodes", [], Option.none⟩ : Config).IsLoaded = true ∧
    (⟨Option.none, "nodes", [], Option.none⟩ : Config).GetTags (some "dev1") Option.none =
      (.ok (.dict []), ⟨Option.none, "nodes", [], Option.none⟩) :=
  ⟨(config_path_none_permanently_loaded ⟨Option.none, "nodes", [], Option.none⟩ rfl).1,
   (config_path_none_permanently_loaded ⟨Option.none, "nodes", [], Option.none⟩ rfl).2.2.2
     Option.none "dev1"⟩


/-! ## Batching helpers and `Flush` loop lemmas -/

/-- Contiguous batches of size `b` (the last one possibly shorter), in
order: the successive prefixes `Flush` copies from the queue head. -/
def chunks {α : Type _} (b : Nat) (l : List α) : List (List α) :=
  if h : l.isEmpty = true ∨ b = 0 then []
  else l.take b :: chunks b (l.drop b)
termination_by l.length
decreasing_by
  rcases l with _ | ⟨x, xs⟩
  · simp at h
  · have hb : b ≠ 0 := by
      intro hb0
      exact h (Or.inr hb0)
    simp only [List.length_drop, List.length_cons]
    omega

lemma chunks_nil {α : Type _} (b : Nat) : chunks b ([] : List α) = [] := by
  rw [chunks]
  simp

lemma chunks_cons {α : Type _} (b : Nat) (hb : b ≠ 0) (l : List α) (hl : l ≠ []) :
    chunks b l = l.take b :: chunks b (l.drop b) := by
  rw [chunks]
  have hie : l.isEmpty = false := by
    cases l
    · exact absurd rfl hl
    · rfl
  simp [hie, hb]

lemma chunks_flatten {α : Type _} (b : Nat) (hb : b ≠ 0) :
    ∀ l : List α, (chunks b l).flatten = l := by
  suffices h : ∀ (n : Nat) (l : List α), l.length ≤ n → (chunks b l).flatten = l by
    exact fun l => h l.length l le_rfl
  intro n
  induction n with
  | zero =>
    intro l hl
    rcases l with _ | ⟨x, xs⟩
    · rw [chunks_nil]
      rfl
    · simp at hl
  | succ n ih =>
    intro l hl
    rcases l with _ | ⟨x, xs⟩
    · rw [chunks_nil]
      rfl
    · rw [chunks_cons b hb _ (by simp), List.flatten_cons,
        ih _ (by simp only [List.length_drop, List.length_cons] at *; omega),
        List.take_append_drop]

lemma chunks_length {α : Type _} (b : Nat) (hb : 1 ≤ b) :
    ∀ l : List α, (chunks b l).length = (l.length + b - 1) / b := by
  suffices h : ∀ (n : Nat) (l : List α), l.length ≤ n →
      (chunks b l).length = (l.length + b - 1) / b by
    exact fun l => h l.length l le_rfl
  intro n
  induction n with
  | zero =>
    intro l hl
    rcases l with _ | ⟨x, xs⟩
    · simp only [chunks_nil, List.length_nil]
      exact (Nat.div_eq_of_lt (by omega)).symm
    · simp at hl
  | succ n ih =>
    intro l hl
    rcases l with _ | ⟨x, xs⟩
    · simp only [chunks_nil, List.length_nil]
      exact (Nat.div_eq_of_lt (by omega)).symm
    · rw [chunks_cons b (by omega) _ (by simp), List.length_cons,
        ih _ (by simp only [List.length_drop, List.length_cons] at *; omega)]
      simp only [List.length_drop, List.length_cons]
      set m := xs.length + 1 with hm
      rcases Nat.le_total m b with hle | hle
      · have h1 : m - b + b - 1 = b - 1 := by omega
        have h2 : (b - 1) / b = 0 := Nat.div_eq_of_lt (by omega)
        have h3 : m + b - 1 = (m - 1) + b := by omega
        have h4 : (m - 1) / b = 0 := Nat.div_eq_of_lt (by omega)
        rw [h1, h2, h3, Nat.add_div_right _ (by omega), h4]
      · have h3 : m + b - 1 = (m - 1) + b := by omega
        have h4 : m - b + b - 1 = m - 1 := by omega
        rw [h3, h4, Nat.add_div_right _ (by omega)]

lemma take_min_length {α : Type _} (q : List α) (b : Nat) :
    q.take (min q.length b) = q.take b := by
  rcases Nat.le_total b q.length with h | h
  · rw [Nat.min_eq_right h]
  · rw [Nat.min_eq_left h, List.take_length]
    exact (List.take_of_length_le h).symm

lemma drop_min_length {α : Type _} (q : List α) (b : Nat) :
    q.drop (min q.length b) = q.drop b := by
  rcases Nat.le_total b q.length with h | h
  · rw [Nat.min_eq_right h]
  · rw [Nat.min_eq_left h, List.drop_length]
    exact (List.drop_eq_nil_of_le h).symm

lemma bnot_isEmpty_of_ne {α : Type _} {m : List α} (h : m ≠ []) : (!m.isEmpty) = true := by
  cases m
  · exact absurd rfl h
  · rfl

lemma pipe_queue_nil_eta (p : MetricPipeline) (h : p.queue = []) :
    ({ p with queue := [] } : MetricPipeline) = p := by
  cases p
  simp_all

/-- When every record has at least one field, the encoded batch is exactly
the copied prefix. -/
lemma points_eq_take (q : List Metric) (count : Nat)
    (hne : ∀ m ∈ q, m.fields ≠ []) :
    (q.take count).filter (fun m => !m.fields.isEmpty) = q.take count :=
  List.filter_eq_self.mpr (fun m hm => bnot_isEmpty_of_ne (hne m (List.take_subset _ _ hm)))

/-- One-step reduction of the `Flush` loop: non-empty queue, backend
handle available, write call succeeds. -/
lemma flushLoop_step_ok (fs : Option ParsedFile) (oracle : Nat → WriteOutcome) (b : Nat)
    (fuel : Nat) (p p1 : MetricPipeline) (calls sent : Nat) (trace : List (List Metric))
    (hie : p.queue.isEmpty = false) (hdbi : dbInit fs p = (.ready, p1))
    (hoc : oracle calls = .ok) :
    flushLoop fs oracle b (fuel + 1) p calls sent trace =
      flushLoop fs oracle b fuel
        { p1 with queue := p1.queue.drop (min p.queue.length b) } (calls + 1)
        (sent + ((p.queue.take (min p.queue.length b)).filter
          (fun m => !m.fields.isEmpty)).length)
        (trace ++ [(p.queue.take (min p.queue.length b)).filter
          (fun m => !m.fields.isEmpty)]) := by
  rw [flushLoop, hie]
  simp only [Bool.false_eq_true, if_false]
  rw [hdbi, hoc]

/-- One-step reduction of the `Flush` loop: non-empty queue, backend
handle available, write call fails transiently. -/
lemma flushLoop_step_transient (fs : Option ParsedFile) (oracle : Nat → WriteOutcome) (b : Nat)
    (fuel : Nat) (p p1 : MetricPipeline) (calls sent : Nat) (trace : List (List Metric))
    (hie : p.queue.isEmpty = false) (hdbi : dbInit fs p = (.ready, p1))
    (hoc : oracle calls = .transient) :
    flushLoop fs oracle b (fuel + 1) p calls sent trace =
      ⟨some (.ok (false, sent)), p1,
        trace ++ [(p.queue.take (min p.queue.length b)).filter
          (fun m => !m.fields.isEmpty)]⟩ := by
  rw [flushLoop, hie]
  simp only [Bool.false_eq_true, if_false]
  rw [hdbi, hoc]

/-- One-step reduction of the `Flush` loop: non-empty queue, backend
handle available, write call raises `RuntimeError`. -/
lemma flushLoop_step_fatal (fs : Option ParsedFile) (oracle : Nat → WriteOutcome) (b : Nat)
    (fuel : Nat) (p p1 : MetricPipeline) (calls sent : Nat) (trace : List (List Metric))
    (hie : p.queue.isEmpty = false) (hdbi : dbInit fs p = (.ready, p1))
    (hoc : oracle calls = .fatal) :
    flushLoop fs oracle b (fuel + 1) p calls sent trace =
      ⟨some (.error .runtimeErr), p1,
        trace ++ [(p.queue.take (min p.queue.length b)).filter
          (fun m => !m.fields.isEmpty)]⟩ := by
  rw [flushLoop, hie]
  simp only [Bool.false_eq_true, if_false]
  rw [hdbi, hoc]

/-- One-step reduction of the `Flush` loop: non-empty queue, backend
construction fails with a generic exception. -/
lemma flushLoop_step_dbfail (fs : Option ParsedFile) (oracle : Nat → WriteOutcome) (b : Nat)
    (fuel : Nat) (p p1 : MetricPipeline) (calls sent : Nat) (trace : List (List Metric))
    (hie : p.queue.isEmpty = false) (hdbi : dbInit fs p = (.genericFail, p1)) :
    flushLoop fs oracle b (fuel + 1) p calls sent trace =
      ⟨some (.ok (false, sent)), p1, trace⟩ := by
  rw [flushLoop, hie]
  simp only [Bool.false_eq_true, if_false]
  rw [hdbi]

/-- One-step reduction of the `Flush` loop: non-empty queue, backend
construction raises `RuntimeError` (unknown database type). -/
lemma flushLoop_step_dbfatal (fs : Option ParsedFile) (oracle : Nat → WriteOutcome) (b : Nat)
    (fuel : Nat) (p p1 : MetricPipeline) (calls sent : Nat) (trace : List (List Metric))
    (hie : p.queue.isEmpty = false) (hdbi : dbInit fs p = (.fatal, p1)) :
    flushLoop fs oracle b (fuel + 1) p calls sent trace =
      ⟨some (.error .runtimeErr), p1, trace⟩ := by
  rw [flushLoop, hie]
  simp only [Bool.false_eq_true, if_false]
  rw [hdbi]

lemma dbInit_of_database (fs : Option ParsedFile) (p : MetricPipeline)
    (hdb : p.database = true) : dbInit fs p = (.ready, p) := by
  rw [dbInit, if_pos hdb]

/-- `Flush`'s loop when the backend accepts every batch: all records are
sent in `chunks`-sized write calls, the queue empties, and the reported
count is the number of queued records. -/
lemma flushLoop_all_success (fs : Option ParsedFile) (oracle : Nat → WriteOutcome) (b : Nat)
    (hb : 1 ≤ b) (hok : ∀ i, oracle i = .ok) :
    ∀ (fuel : Nat) (p : MetricPipeline) (calls sent : Nat) (trace : List (List Metric)),
      p.queue.length ≤ fuel → p.database = true →
      (∀ m ∈ p.queue, m.fields ≠ []) →
      flushLoop fs oracle b fuel p calls sent trace =
        ⟨some (.ok (true, sent + p.queue.length)), { p with queue := [] },
          trace ++ chunks b p.queue⟩ := by
  intro fuel
  induction fuel with
  | zero =>
    intro p calls sent trace hf hdb hne
    have hq : p.queue = [] := by
      cases hq : p.queue with
      | nil => rfl
      | cons x xs => rw [hq] at hf; simp at hf
    rw [flushLoop]
    have hie : p.queue.isEmpty = true := by rw [hq]; rfl
    rw [hie]
    simp only [if_true]
    rw [pipe_queue_nil_eta p hq, hq]
    simp [chunks_nil]
  | succ n ih =>
    intro p calls sent trace hf hdb hne
    by_cases hq : p.queue = []
    · rw [flushLoop]
      have hie : p.queue.isEmpty = true := by rw [hq]; rfl
      rw [hie]
      simp only [if_true]
      rw [pipe_queue_nil_eta p hq, hq]
      simp [chunks_nil]
    · have hie : p.queue.isEmpty = false := by
        cases hqq : p.queue
        · exact absurd hqq hq
        · rfl
      have hlen1 : 0 < p.queue.length := List.length_pos.mpr hq
      rw [flushLoop_step_ok fs oracle b n p p calls sent trace hie
            (dbInit_of_database fs p hdb) (hok calls)]
      rw [ih { p with queue := p.queue.drop (min p.queue.length b) } (calls + 1) _ _
            (by simp only [List.length_drop]; omega)
            (by simpa using hdb)
            (fun m hm => hne m (List.drop_subset _ _ hm))]
      rw [points_eq_take _ _ hne]
      simp only [List.length_take, List.length_drop, take_min_length, drop_min_length]
      have hchunks := chunks_cons b (by omega) p.queue hq
      simp only [FlushOut.mk.injEq, Option.some.injEq, Except.ok.injEq, Prod.mk.injEq,
        true_and, and_true]
      refine ⟨by omega, ?_⟩
      rw [hchunks]
      simp [List.append_assoc]

/-- `Flush`'s loop when the first `k` write calls succeed and call `k`
fails transiently: the first `k` full batches are popped and counted, the
failing batch and everything after it stay queued, and the loop reports
`(False, k * b)`. -/
lemma flushLoop_fail_at (fs : Option ParsedFile) (oracle : Nat → WriteOutcome) (b : Nat)
    (hb : 1 ≤ b) :
    ∀ (k fuel : Nat) (p : MetricPipeline) (calls sent : Nat) (trace : List (List Metric)),
      (∀ i, i < k → oracle (calls + i) = .ok) → oracle (calls + k) = .transient →
      k * b < p.queue.length → p.queue.length ≤ fuel → p.database = true →
      (∀ m ∈ p.queue, m.fields ≠ []) →
      flushLoop fs oracle b fuel p calls sent trace =
        ⟨some (.ok (false, sent + k * b)), { p with queue := p.queue.drop (k * b) },
          trace ++ (chunks b p.queue).take (k + 1)⟩ := by
  intro k
  induction k with
  | zero =>
    intro fuel p calls sent trace _ htr hkb hf hdb hne
    rw [Nat.zero_mul] at hkb
    have hq : p.queue ≠ [] := by
      intro h
      rw [h] at hkb
      simp at hkb
    obtain ⟨fuel2, rfl⟩ : ∃ fuel2, fuel = fuel2 + 1 := by
      cases fuel
      · omega
      · exact ⟨_, rfl⟩
    have hie : p.queue.isEmpty = false := by
      cases hqq : p.queue
      · exact absurd hqq hq
      · rfl
    rw [Nat.add_zero] at htr
    rw [flushLoop_step_transient fs oracle b fuel2 p p calls sent trace hie
          (dbInit_of_database fs p hdb) htr]
    rw [points_eq_take _ _ hne]
    simp only [take_min_length]
    have hchunks := chunks_cons b (by omega) p.queue hq
    rw [hchunks]
    simp only [Nat.zero_mul, Nat.add_zero, List.drop_zero, List.take_succ_cons,
      List.take_zero, FlushOut.mk.injEq]
  | succ k ih =>
    intro fuel p calls sent trace hok htr hkb hf hdb hne
    have hbk : b ≤ (k + 1) * b := Nat.le_mul_of_pos_left b (by omega)
    have hblen : b < p.queue.length := Nat.lt_of_le_of_lt hbk hkb
    have hq : p.queue ≠ [] := by
      intro h
      rw [h] at hblen
      simp at hblen
    obtain ⟨fuel2, rfl⟩ : ∃ fuel2, fuel = fuel2 + 1 := by
      cases fuel
      · have h0 : p.queue.length = 0 := by omega
        rw [List.length_eq_zero] at h0
        exact absurd h0 hq
      · exact ⟨_, rfl⟩
    have hie : p.queue.isEmpty = false := by
      cases hqq : p.queue
      · exact absurd hqq hq
      · rfl
    have h0 : oracle calls = .ok := by simpa using hok 0 (Nat.succ_pos k)
    rw [flushLoop_step_ok fs oracle b fuel2 p p calls sent trace hie
          (dbInit_of_database fs p hdb) h0]
    have hminb : min p.queue.length b = b := Nat.min_eq_right (le_of_lt hblen)
    have hkb2 : k * b + b < p.queue.length := by rw [← Nat.succ_mul]; exact hkb
    rw [ih fuel2 { p with queue := p.queue.drop (min p.queue.length b) } (calls + 1) _ _
          (fun i hi => by
            rw [show calls + 1 + i = calls + (i + 1) from by omega]
            exact hok (i + 1) (by omega))
          (by rw [show calls + 1 + k = calls + (k + 1) from by omega]; exact htr)
          (by
            simp only [List.length_drop, hminb]
            exact Nat.lt_sub_of_add_lt hkb2)
          (by simp only [List.length_drop]; omega)
          (by simpa using hdb)
          (fun m hm => hne m (List.drop_subset _ _ hm))]
    rw [points_eq_take _ _ hne]
    simp only [List.length_take, List.length_drop, hminb]
    have hchunks := chunks_cons b (by omega) p.queue hq
    simp only [FlushOut.mk.injEq, Option.some.injEq, Except.ok.injEq, Prod.mk.injEq,
      true_and, and_true]
    refine ⟨?_, ?_, ?_⟩
    · have h1 : min b p.queue.length = b := Nat.min_eq_left (le_of_lt hblen)
      rw [h1, Nat.succ_mul]
      ring
    · rw [List.drop_drop]
      rw [show b + k * b = (k + 1) * b from by rw [Nat.succ_mul]; ring]
    · rw [hchunks]
      simp only [List.take_succ_cons]
      simp [List.append_assoc]


/-- Reduction of the `Flush` loop on an empty queue. -/
lemma flushLoop_empty (fs : Option ParsedFile) (oracle : Nat → WriteOutcome) (b : Nat)
    (fuel : Nat) (p : MetricPipeline) (calls sent : Nat) (trace : List (List Metric))
    (hie : p.queue.isEmpty = true) :
    flushLoop fs oracle b fuel p calls sent trace = ⟨some (.ok (true, sent)), p, trace⟩ := by
  cases fuel with
  | zero =>
    rw [flushLoop, hie]
    simp only [if_true]
  | succ n =>
    rw [flushLoop, hie]
    simp only [if_true]

/-- Reduction of the `Flush` loop when the fuel is exhausted. -/
lemma flushLoop_zero (fs : Option ParsedFile) (oracle : Nat → WriteOutcome) (b : Nat)
    (p : MetricPipeline) (calls sent : Nat) (trace : List (List Metric))
    (hie : p.queue.isEmpty = false) :
    flushLoop fs oracle b 0 p calls sent trace = ⟨Option.none, p, trace⟩ := by
  rw [flushLoop, hie]
  simp only [Bool.false_eq_true, if_false]

lemma fields_ne_of_mem_filter {q : List Metric} {count : Nat} {m : Metric}
    (hm : m ∈ (q.take count).filter (fun m => !m.fields.isEmpty)) : m.fields ≠ [] := by
  have hp := (List.mem_filter.mp hm).2
  intro hnil
  rw [hnil] at hp
  simp at hp

/-- Every batch the `Flush` loop hands to the backend consists of records
with a non-empty field map (records with zero fields are skipped at encode
time, `metrics.py` lines 159-160). -/
lemma flushLoop_trace_fields (fs : Option ParsedFile) (oracle : Nat → WriteOutcome) (b : Nat) :
    ∀ (fuel : Nat) (p : MetricPipeline) (calls sent : Nat) (trace : List (List Metric)),
      (∀ batch ∈ trace, ∀ m ∈ batch, m.fields ≠ []) →
      ∀ batch ∈ (flushLoop fs oracle b fuel p calls sent trace).trace,
        ∀ m ∈ batch, m.fields ≠ [] := by
  intro fuel
  induction fuel with
  | zero =>
    intro p calls sent trace htr
    cases hie : p.queue.isEmpty with
    | true => rw [flushLoop_empty fs oracle b 0 p calls sent trace hie]; exact htr
    | false => rw [flushLoop_zero fs oracle b p calls sent trace hie]; exact htr
  | succ n ih =>
    intro p calls sent trace htr
    cases hie : p.queue.isEmpty with
    | true => rw [flushLoop_empty fs oracle b (n + 1) p calls sent trace hie]; exact htr
    | false =>
      have happ : ∀ batch ∈ trace ++ [(p.queue.take (min p.queue.length b)).filter
          (fun m => !m.fields.isEmpty)], ∀ m ∈ batch, m.fields ≠ [] := by
        intro batch hb m hm
        rcases List.mem_append.mp hb with h | h
        · exact htr batch h m hm
        · rw [List.mem_singleton.mp h] at hm
          exact fields_ne_of_mem_filter hm
      rcases hdbi : dbInit fs p with ⟨res, p1⟩
      cases res with
      | genericFail =>
        rw [flushLoop_step_dbfail fs oracle b n p p1 calls sent trace hie hdbi]
        exact htr
      | fatal =>
        rw [flushLoop_step_dbfatal fs oracle b n p p1 calls sent trace hie hdbi]
        exact htr
      | ready =>
        cases hoc : oracle calls with
        | ok =>
          rw [flushLoop_step_ok fs oracle b n p p1 calls sent trace hie hdbi hoc]
          exact ih _ _ _ _ happ
        | transient =>
          rw [flushLoop_step_transient fs oracle b n p p1 calls sent trace hie hdbi hoc]
          exact happ
        | fatal =>
          rw [flushLoop_step_fatal fs oracle b n p p1 calls sent trace hie hdbi hoc]
          exact happ

/-- C3 amended: the queue CAN hold zero-field records (see the
counterexample: `Enqueue` appends them), but they are never written to the
backend — every record of every backend write call during any `Flush` has
a non-empty field map; zero-field records are silently dropped when their
batch is popped. -/
theorem flush_never_writes_zero_field_records
    (fs : Option ParsedFile) (oracle : Nat → WriteOutcome) (p : MetricPipeline) :
    ∀ batch ∈ (p.Flush fs oracle).trace, ∀ m ∈ batch, m.fields ≠ [] := by
  unfold MetricPipeline.Flush
  by_cases hsd : p.shutdown = true
  · rw [if_pos hsd]
    intro batch hb
    simp at hb
  · rw [if_neg hsd]
    exact flushLoop_trace_fields fs oracle p.batchSize p.queue.length p 0 0 []
      (fun batch hb => by simp at hb)

/-- A one-field record and a pipeline holding only it, used to witness the
flush-trace invariant. -/
def mW3 : Metric := ⟨"dev1", "cpu", [], [("cores", ⟨.int 2, .int 2⟩)]⟩
def pW3 : MetricPipeline := ⟨cfgFix, false, 10, [mW3], true, false⟩

/-- C3 witness: the invariant applied to a concrete flush whose single
write call contains the record `mW3`. -/
theorem flush_never_writes_zero_field_records_witness : mW3.fields ≠ [] :=
  flush_never_writes_zero_field_records Option.none (fun _ => .ok) pW3 [mW3]
    (show [mW3] ∈ [[mW3]] from List.mem_singleton.mpr rfl)
    mW3 (List.mem_singleton.mpr rfl)

/-! ## C7 -/

/-- C7: `Flush` batching.  With the pipeline live (not shut down, backend
handle present), a positive batch size and no zero-field records queued:
(1) if the backend accepts every write, `Flush` performs the write calls
`chunks b queue` — i.e. ⌈n/b⌉ calls of `min(b, remaining)` records each,
whose concatenation is exactly the queue in FIFO order — empties the
queue and returns `(True, n)`;
(2) if the first `k` calls succeed and call `k` fails transiently while
records remain, `Flush` stops at once: the first `k·b` records are gone,
the rest (failing batch included) stay queued in order, the attempted
write calls are the first `k+1` chunks, and the result is `(False, k·b)`. -/
theorem flush_batching :
    (∀ (fs : Option ParsedFile) (oracle : Nat → WriteOutcome) (p : MetricPipeline),
      p.shutdown = false → p.database = true → 1 ≤ p.batchSize →
      (∀ m ∈ p.queue, m.fields ≠ []) → (∀ i, oracle i = .ok) →
      (p.Flush fs oracle).result = some (.ok (true, p.queue.length)) ∧
      (p.Flush fs oracle).pipe.queue = [] ∧
      (p.Flush fs oracle).trace = chunks p.batchSize p.queue ∧
      (p.Flush fs oracle).trace.flatten = p.queue ∧
      (p.Flush fs oracle).trace.length = (p.queue.length + p.batchSize - 1) / p.batchSize) ∧
    (∀ (fs : Option ParsedFile) (oracle : Nat → WriteOutcome) (p : MetricPipeline) (k : Nat),
      p.shutdown = false → p.database = true → 1 ≤ p.batchSize →
      (∀ m ∈ p.queue, m.fields ≠ []) →
      (∀ i, i < k → oracle i = .ok) → oracle k = .transient →
      k * p.batchSize < p.queue.length →
      (p.Flush fs oracle).result = some (.ok (false, k * p.batchSize)) ∧
      (p.Flush fs oracle).pipe.queue = p.queue.drop (k * p.batchSize) ∧
      (p.Flush fs oracle).trace = (chunks p.batchSize p.queue).take (k + 1)) := by
  constructor
  · intro fs oracle p hsd hdb hb hne hok
    unfold MetricPipeline.Flush
    rw [if_neg (by rw [hsd]; exact Bool.false_ne_true)]
    rw [flushLoop_all_success fs oracle p.batchSize hb hok p.queue.length p 0 0 []
          le_rfl hdb hne]
    refine ⟨by rw [Nat.zero_add], rfl, by rw [List.nil_append], ?_, ?_⟩
    · rw [List.nil_append]
      exact chunks_flatten p.batchSize (by omega) p.queue
    · rw [List.nil_append]
      exact chunks_length p.batchSize hb p.queue
  · intro fs oracle p k hsd hdb hb hne hok htr hkb
    unfold MetricPipeline.Flush
    rw [if_neg (by rw [hsd]; exact Bool.false_ne_true)]
    rw [flushLoop_fail_at fs oracle p.batchSize hb k p.queue.length p 0 0 []
          (fun i hi => by rw [Nat.zero_add]; exact hok i hi)
          (by rw [Nat.zero_add]; exact htr) hkb le_rfl hdb hne]
    exact ⟨by rw [Nat.zero_add], rfl, by rw [List.nil_append]⟩

/-- A 25-record queue of one-field metrics with batch size 10. -/
def mBatch : Metric := ⟨"dev1", "cpu", [], [("cores", ⟨.int 1, .int 1⟩)]⟩
def pBatch : MetricPipeline := ⟨cfgFix, false, 10, List.replicate 25 mBatch, true, false⟩
def orFailSecond : Nat → WriteOutcome := fun i => if i = 1 then .transient else .ok

/-- C7 witness: 25 records, batch size 10 — an always-succeeding backend
gives three write calls (10, 10, 5), an empty queue and `(True, 25)`; a
backend failing transiently on the second call leaves 15 records queued
and reports `(False, 10)`. -/
theorem flush_batching_witness :
    (pBatch.Flush Option.none (fun _ => .ok)).result = some (.ok (true, 25)) ∧
    (pBatch.Flush Option.none (fun _ => .ok)).pipe.queue = [] ∧
    (pBatch.Flush Option.none (fun _ => .ok)).trace.length = 3 ∧
    (pBatch.Flush Option.none orFailSecond).result = some (.ok (false, 10)) ∧
    (pBatch.Flush Option.none orFailSecond).pipe.queue.length = 15 := by
  have hne : ∀ m ∈ pBatch.queue, m.fields ≠ [] := by
    intro m hm
    have hmb : m = mBatch := List.eq_of_mem_replicate hm
    rw [hmb]
    exact List.cons_ne_nil _ _
  have h1 := flush_batching.1 Option.none (fun _ => .ok) pBatch rfl rfl (by decide) hne
    (fun i => rfl)
  have h2 := flush_batching.2 Option.none orFailSecond pBatch 1 rfl rfl (by decide) hne
    (fun i hi => by
      have hi0 : i = 0 := by omega
      rw [hi0]
      rfl)
    rfl (by decide)
  refine ⟨?_, h1.2.1, ?_, ?_, ?_⟩
  · have := h1.1
    simpa [pBatch] using this
  · have := h1.2.2.2.2
    simpa [pBatch] using this
  · have := h2.1
    simpa using this
  · have := h2.2.1
    rw [this]
    simp [pBatch]


/-! ## C6 -/

lemma hashPairs_error : ∀ (ts : List String) (acc : List (String × PyValue)) (e : PyExc),
    hashPairs ts acc = .error e → e = .convFail := by
  intro ts
  induction ts with
  | nil =>
    intro acc e h
    exact absurd h (by simp [hashPairs])
  | cons t ts ih =>
    intro acc e h
    rw [hashPairs] at h
    rcases hsp : pySplitOnChar '=' t with _ | ⟨k, _ | ⟨v, _ | _⟩⟩ <;> rw [hsp] at h
    · injection h with h2
      exact h2.symm
    · injection h with h2
      exact h2.symm
    · exact ih _ _ h
    · injection h with h2
      exact h2.symm

lemma convertHashType_error (v : PyValue) (e : PyExc) (h : ConvertHashType v = .error e) :
    e = .convFail ∨ e = .attrErr := by
  cases v with
  | str s =>
    rw [ConvertHashType] at h
    cases hp : hashPairs (pySplitWs s) [] with
    | ok d =>
      rw [hp] at h
      exact absurd h (by simp [Except.map])
    | error e2 =>
      rw [hp] at h
      simp only [Except.map] at h
      injection h with h2
      exact Or.inl (h2 ▸ hashPairs_error _ _ _ hp)
  | int n => simp [ConvertHashType] at h; exact Or.inr h.symm
  | float f => simp [ConvertHashType] at h; exact Or.inr h.symm
  | bool b => simp [ConvertHashType] at h; exact Or.inr h.symm
  | list xs => simp [ConvertHashType] at h; exact Or.inr h.symm
  | dict d => simp [ConvertHashType] at h; exact Or.inr h.symm
  | none => simp [ConvertHashType] at h; exact Or.inr h.symm

/-- With the `hash` hint, `ConvertValue` is exactly `ConvertHashType` of
the stripped string: its errors (`ConversionFailure`, `AttributeError`)
are not in the `except (TypeError, ValueError)` clause and propagate. -/
lemma convertValue_hash_str (s : String) :
    ConvertValue (.str s) (some (.str HASH_TYPE)) = ConvertHashType (.str (pyTrim s)) := by
  cases h : ConvertHashType (.str (pyTrim s)) with
  | ok d =>
    simp [ConvertValue, stripIfStr, pyEqStr, HASH_TYPE, ARRAY_TYPE, h]
  | error e =>
    rcases convertHashType_error _ _ h with rfl | rfl <;>
      simp [ConvertValue, stripIfStr, pyEqStr, HASH_TYPE, ARRAY_TYPE, h]

lemma hashPairs_ok : ∀ (ts : List String) (acc : List (String × PyValue)),
    (∀ t ∈ ts, (pySplitOnChar '=' t).length = 2) → ∃ d, hashPairs ts acc = .ok d := by
  intro ts
  induction ts with
  | nil => exact fun acc _ => ⟨acc, rfl⟩
  | cons t ts ih =>
    intro acc h
    have ht := h t (List.mem_cons_self _ _)
    rcases hsp : pySplitOnChar '=' t with _ | ⟨k, _ | ⟨v, _ | _⟩⟩ <;> rw [hsp] at ht
    · simp at ht
    · simp at ht
    · rw [hashPairs, hsp]
      exact ih _ (fun t2 h2 => h t2 (List.mem_cons_of_mem _ h2))
    · simp at ht

lemma hashPairs_err : ∀ (ts : List String) (acc : List (String × PyValue)),
    (∃ t ∈ ts, (pySplitOnChar '=' t).length ≠ 2) → hashPairs ts acc = .error .convFail := by
  intro ts
  induction ts with
  | nil =>
    intro acc h
    simp at h
  | cons t ts ih =>
    intro acc h
    rw [hashPairs]
    rcases hsp : pySplitOnChar '=' t with _ | ⟨k, _ | ⟨v, _ | _⟩⟩
    · rfl
    · rfl
    · rcases h with ⟨t2, ht2, hbad⟩
      rcases List.mem_cons.mp ht2 with rfl | hmem
      · rw [hsp] at hbad
        simp at hbad
      · exact ih _ ⟨t2, hmem, hbad⟩
    · rfl

/-- C6 counterexample: the claim says a token is split on its FIRST `=`
(so `"a=b=c"` would yield `{a: "b=c"}`), but Python's `split('=')` splits
on every `=`, the two-element unpacking fails, and the whole conversion
raises `ConversionFailure`. -/
theorem hash_coercion_two_equals_raises :
    ConvertValue (.str "a=b=c") (some (.str HASH_TYPE)) = .error .convFail ∧
    pySplitOnChar '=' "a=b=c" = ["a", "b", "c"] :=
  ⟨rfl, rfl⟩

/-- C6 amended: `Coerce(value, hash)` splits the stripped string on
whitespace and requires every token to contain EXACTLY one `=` (zero or
several `=` both fail the whole conversion with `ConversionFailure`);
otherwise it returns the key/value map.  The claim's concrete examples
hold. -/
theorem hash_coercion_exactly_one_equals (s : String) :
    ((∀ t ∈ pySplitWs (pyTrim s), (pySplitOnChar '=' t).length = 2) →
      ∃ d, ConvertValue (.str s) (some (.str HASH_TYPE)) = .ok (.dict d)) ∧
    ((∃ t ∈ pySplitWs (pyTrim s), (pySplitOnChar '=' t).length ≠ 2) →
      ConvertValue (.str s) (some (.str HASH_TYPE)) = .error .convFail) ∧
    ConvertValue (.str "a=1 b=2") (some (.str HASH_TYPE)) =
      .ok (.dict [("a", .str "1"), ("b", .str "2")]) ∧
    ConvertValue (.str "a=1 bad") (some (.str HASH_TYPE)) = .error .convFail := by
  refine ⟨?_, ?_, rfl, rfl⟩
  · intro hall
    obtain ⟨d, hd⟩ := hashPairs_ok (pySplitWs (pyTrim s)) [] hall
    refine ⟨d, ?_⟩
    rw [convertValue_hash_str, ConvertHashType, hd]
    rfl
  · intro hex
    rw [convertValue_hash_str, ConvertHashType, hashPairs_err _ _ hex]
    rfl

/-- C6 witness: the amended theorem at a concrete string with a token
lacking `=`. -/
theorem hash_coercion_exactly_one_equals_witness :
    ConvertValue (.str "x=1 nope") (some (.str HASH_TYPE)) = .error .convFail :=
  (hash_coercion_exactly_one_equals "x=1 nope").2.1 (by decide)

/-! ## C8 -/

/-- C8 counterexample: the hint-less fallback does not return the original
value unchanged — the input is whitespace-stripped first, so
`Coerce(" abc ")` yields `"abc"`, not `" abc "`. -/
theorem inference_fallback_strips_whitespace :
    ConvertValue (.str " abc ") Option.none = .ok (.str "abc") ∧ " abc " ≠ "abc" :=
  ⟨rfl, by decide⟩

/-- C8 amended: hint-less coercion first strips the string, then tries the
boolean literals, then parses numerically (float when a `.` is present,
else integer via truncation), and on numeric-parse failure silently
returns the STRIPPED original string; the claim's concrete examples all
hold. -/
theorem inference_order_with_stripped_fallback (s : String) :
    (∀ b, ConvertBoolean (.str (pyTrim s)) = some b →
      ConvertValue (.str s) Option.none = .ok (.bool b)) ∧
    (∀ f, ConvertBoolean (.str (pyTrim s)) = Option.none →
      pyFloatParse (pyTrim s) = some f →
      (pyContains (pyTrim s) '.' = true →
        ConvertValue (.str s) Option.none = .ok (.float f)) ∧
      (pyContains (pyTrim s) '.' = false →
        ConvertValue (.str s) Option.none = .ok (.int (pyTrunc f)))) ∧
    (ConvertBoolean (.str (pyTrim s)) = Option.none →
      pyFloatParse (pyTrim s) = Option.none →
      ConvertValue (.str s) Option.none = .ok (.str (pyTrim s))) ∧
    ConvertValue (.str "yes") Option.none = .ok (.bool true) ∧
    ConvertValue (.str "0") Option.none = .ok (.bool false) ∧
    ConvertValue (.str "3.5") Option.none = .ok (.float ⟨35, 1⟩) ∧
    ConvertValue (.str "3") Option.none = .ok (.int 3) ∧
    ConvertValue (.str "abc") Option.none = .ok (.str "abc") := by
  refine ⟨?_, ?_, ?_, rfl, rfl, rfl, rfl, rfl⟩
  · intro b hb
    simp [ConvertValue, stripIfStr, hb]
  · intro f hbn hf
    constructor <;> intro hc <;>
      simp [ConvertValue, stripIfStr, pyFloatOf, hbn, hf, hc]
  · intro hbn hfn
    simp [ConvertValue, ConvertValue.handler, stripIfStr, pyFloatOf, hbn, hfn]

/-- C8 witness: the amended fallback case at a concrete non-numeric,
non-boolean string with surrounding whitespace. -/
theorem inference_order_with_stripped_fallback_witness :
    ConvertValue (.str " abc q ") Option.none = .ok (.str "abc q") :=
  (inference_order_with_stripped_fallback " abc q ").2.2.1 rfl rfl


/-! ## C9 -/

/-- The per-field outcome of a successful `Enqueue` pass: the clean value
is the coerced value, or the hint's default when coercion raised
`ConversionFailure` (`metrics.py` lines 119-133). -/
def procField (cfg : Config) (fs : Option ParsedFile) (meas : String)
    (pr : String × FieldEntry) : String × FieldEntry :=
  match (cfg.GetField (some meas) (some pr.1) fs).1 with
  | .ok hv =>
    match ConvertValue pr.2.original (some hv) with
    | .ok v => (pr.1, { pr.2 with clean := v })
    | .error .convFail =>
      match DefaultValue hv with
      | .ok d => (pr.1, { pr.2 with clean := d })
      | .error _ => pr
    | .error _ => pr
  | .error _ => pr

/-- When every field's hint lookup succeeds (leaving the config untouched)
and every coercion either succeeds or fails with `ConversionFailure` (with
a well-defined default), the field loop of `Enqueue` processes all fields
and reports `skip = false`. -/
lemma enqueueFields_ok (cfg : Config) (fs : Option ParsedFile) (logger : Bool) (meas : String) :
    ∀ flds : List (String × FieldEntry),
      (∀ pr ∈ flds, ∃ hv, cfg.GetField (some meas) (some pr.1) fs = (.ok hv, cfg) ∧
        ((∃ v, ConvertValue pr.2.original (some hv) = .ok v) ∨
         (ConvertValue pr.2.original (some hv) = .error .convFail ∧
          ∃ d, DefaultValue hv = .ok d))) →
      enqueueFields cfg fs logger meas flds =
        (.ok (flds.map (procField cfg fs meas), false), cfg) := by
  intro flds
  induction flds with
  | nil => intro _; rfl
  | cons pr rest ih =>
    intro h
    obtain ⟨hv, hgf, hcv⟩ := h pr (List.mem_cons_self _ _)
    rcases pr with ⟨fld, fe⟩
    have h1 : (cfg.GetField (some meas) (some fld) fs).1 = .ok hv := by rw [hgf]
    have hrest := ih (fun pr2 h2 => h pr2 (List.mem_cons_of_mem _ h2))
    rcases hcv with ⟨v, hcv⟩ | ⟨hcv, d, hd⟩
    · simp only [enqueueFields, hgf, hcv, hrest, List.map_cons, procField, h1]
    · simp only [enqueueFields, hgf, hcv, hd, hrest, List.map_cons, procField, h1]

/-- C9: for a metric whose measurement and fields are all registered,
`Enqueue` never drops the record: each convertible field's clean value is
its coerced value, each field whose coercion raises `ConversionFailure`
gets its hint's default value instead, and the processed record is
appended to the queue tail (the config object is untouched). -/
theorem enqueue_partial_field_degradation
    (p : MetricPipeline) (m : Metric) (fs : Option ParsedFile)
    (hsd : p.shutdown = false)
    (hf : ∀ pr ∈ m.fields, ∃ hv,
        p.config.GetField (some m.measurement) (some pr.1) fs = (.ok hv, p.config) ∧
        ((∃ v, ConvertValue pr.2.original (some hv) = .ok v) ∨
         (ConvertValue pr.2.original (some hv) = .error .convFail ∧
          ∃ d, DefaultValue hv = .ok d))) :
    (p.Enqueue [m] fs).1 = .ok () ∧
    (p.Enqueue [m] fs).2.queue =
      p.queue ++ [{ m with fields := m.fields.map (procField p.config fs m.measurement) }] ∧
    (p.Enqueue [m] fs).2.config = p.config := by
  unfold MetricPipeline.Enqueue
  rw [if_neg (by rw [hsd]; exact Bool.false_ne_true)]
  rw [enqueueMetrics, enqueueFields_ok p.config fs p.logger m.measurement m.fields hf]
  simp [enqueueMetrics]

/-- A metric with one convertible (`cores`, int) and one unconvertible
(`load`, float) field. -/
def mW9 : Metric :=
  ⟨"dev1", "cpu", [], [("cores", ⟨.str "4", .none⟩), ("load", ⟨.str "oops", .none⟩)]⟩
def pW9 : MetricPipeline := ⟨cfgFix, true, 10, [], false, false⟩

/-- C9 witness: the queued record holds `cores = 4` (coerced) and
`load = 0.0` (the float default), exactly as the claim describes. -/
theorem enqueue_partial_field_degradation_witness :
    (pW9.Enqueue [mW9] Option.none).1 = .ok () ∧
    (pW9.Enqueue [mW9] Option.none).2.queue =
      [⟨"dev1", "cpu", [],
        [("cores", ⟨.str "4", .int 4⟩), ("load", ⟨.str "oops", .float ⟨0, 0⟩⟩)]⟩] := by
  have h := enqueue_partial_field_degradation pW9 mW9 Option.none rfl ?hf
  · refine ⟨h.1, ?_⟩
    rw [h.2.1]
    rfl
  case hf =>
    intro pr hpr
    have hpr2 : pr ∈ [("cores", (⟨.str "4", .none⟩ : FieldEntry)),
        ("load", (⟨.str "oops", .none⟩ : FieldEntry))] := hpr
    simp only [List.mem_cons, List.not_mem_nil, or_false] at hpr2
    rcases hpr2 with rfl | rfl
    · exact ⟨.str "int", rfl, Or.inl ⟨.int 4, rfl⟩⟩
    · exact ⟨.str "float", rfl, Or.inr ⟨rfl, ⟨.float ⟨0, 0⟩, rfl⟩⟩⟩

end PyMonitorLib
